import Mathlib

/-!
Verification development for the MedChrons document-to-chronology pipeline.

The definitions below are a shallow embedding of the TypeScript source:
`types.ts` (data model), `services/geminiService.ts` (the two pipeline
stages), and the main application component (queue scheduler, per-document
state updates, aggregation projection, persistence round-trip).

Modelling conventions:
- TS `Date` values become `Nat` timestamps.
- TS optional fields (`field?`) become `Option`.
- The browser `File` handle becomes an opaque record `FileHandle`.
- Calls to the external model capability are suspend points whose outcome
  is an explicit input of the embedded function (`ModelResult`,
  `Stage2Response`), so one run of `processDocument` is a pure function of
  the capability outcomes.
- `setCases`/`setDocuments` functional updates become list transformations.
-/

namespace MedChron

/-- Processing status enumeration from `types.ts`. -/
inductive ProcessingStatus where
  | IDLE
  | QUEUED
  | UPLOADING
  | GENERATING_PROSE
  | EXTRACTING_ENTITIES
  | COMPLETED
  | ERROR
  deriving DecidableEq

/-- Closed category enumeration from `types.ts`. -/
inductive EntityCategory where
  | DIAGNOSIS
  | TREATMENT
  | SYMPTOM
  | LAB_RESULT
  | MEDICATION
  | ADMINISTRATIVE
  | OTHER
  deriving DecidableEq

/-- `MedicalFact` from `types.ts`. -/
structure MedicalFact where
  time : Option String := none
  category : EntityCategory
  detail : String
  pageNumber : Option Nat := none
  quote : Option String := none
  deriving DecidableEq

/-- `MedicalEntity` (a DailyEntry) from `types.ts`. -/
structure MedicalEntity where
  date : String
  summary : String
  facts : List MedicalFact
  umlsEntities : Option (List String) := none
  deriving DecidableEq

/-- Opaque stand-in for the browser `File` object (session-scoped binary handle). -/
structure FileHandle where
  name : String
  mimeType : String
  size : Nat
  deriving DecidableEq

/-- `ProcessedDocument` from `types.ts`.  `uploadDate` is a timestamp. -/
structure ProcessedDocument where
  id : String
  name : String
  mimeType : String
  size : Nat
  uploadDate : Nat
  status : ProcessingStatus
  proseDescription : Option String := none
  entities : Option (List MedicalEntity) := none
  error : Option String := none
  rawFile : Option FileHandle := none
  deriving DecidableEq

/-- `MedicalCase` from `types.ts`. -/
structure MedicalCase where
  id : String
  name : String
  createdAt : Nat
  documents : List ProcessedDocument
  deriving DecidableEq

/-- `TimelineEvent` from `types.ts`: a DailyEntry stamped with its source
document's id and name.  The per-event random `uuidv4()` identifier is not
modelled (it is fresh randomness, carrying no information). -/
structure TimelineEvent where
  date : String
  summary : String
  facts : List MedicalFact
  umlsEntities : Option (List String)
  sourceDocumentId : String
  sourceDocumentName : String
  deriving DecidableEq

/-! ### Pipeline stages (`services/geminiService.ts`) -/

/-- Outcome of one `ai.models.generateContent` call as observed by
`generateDocumentProse`: either the call threw (unreachable / timeout /
API error), or it returned with `response.text` being absent or a string. -/
inductive ModelResult where
  | failure
  | ok (text : Option String)
  deriving DecidableEq

/-- `generateDocumentProse` (geminiService.ts lines 31-72): on a thrown
capability error it rethrows "Failed to generate document description.";
otherwise it returns `response.text || "No description generated."` —
JS `||` substitutes the placeholder when `text` is `undefined` or the
empty string. -/
def generateDocumentProse (response : ModelResult) : Except String String :=
  match response with
  | .failure => .error "Failed to generate document description."
  | .ok t =>
      .ok (match t with
        | none => "No description generated."
        | some s => if s = "" then "No description generated." else s)

/-- Outcome of the stage-2 `generateContent` call plus the subsequent
`JSON.parse`, as observed by `extractEntitiesFromProse`:
`apiFailure` = the capability call threw; `emptyText` = `response.text`
was absent or empty; `parsed es` = `JSON.parse` succeeded and the cast
`as MedicalEntity[]` yielded `es` (the cast checks nothing, so `es` is an
arbitrary value of the type — in particular its entries may have empty
dates or empty fact lists); `unparseable` = `JSON.parse` threw. -/
inductive Stage2Response where
  | apiFailure
  | emptyText
  | parsed (entities : List MedicalEntity)
  | unparseable
  deriving DecidableEq

/-- `extractEntitiesFromProse` (geminiService.ts lines 78-165): an empty
response text returns `[]`; a parsed response is returned unchanged (no
validation or filtering of entries happens in this function); a thrown
capability error or parse error rethrows
"Failed to extract entities from prose.". -/
def extractEntitiesFromProse (response : Stage2Response) : Except String (List MedicalEntity) :=
  match response with
  | .apiFailure => .error "Failed to extract entities from prose."
  | .emptyText => .ok []
  | .parsed es => .ok es
  | .unparseable => .error "Failed to extract entities from prose."

/-! ### Document updates and the processing pipeline (App component) -/

/-- The `Partial<ProcessedDocument>` updates actually passed to `updateDoc`
in the App component: only these three data fields ever occur.  A `some`
field is present in the partial object and overrides; a `none` field is
absent and the spread keeps the document's current value. -/
structure DocUpdates where
  proseDescription : Option String := none
  entities : Option (List MedicalEntity) := none
  error : Option String := none
  deriving DecidableEq

/-- Spread semantics of `{ ...d, status, ...updates }`. -/
def applyUpdates (d : ProcessedDocument) (status : ProcessingStatus) (u : DocUpdates) :
    ProcessedDocument :=
  { d with
    status := status
    proseDescription := u.proseDescription.or d.proseDescription
    entities := u.entities.or d.entities
    error := u.error.or d.error }

/-- Document-list part of `updateDoc` (App, part_002 lines 94-102):
`documents.map(d => d.id === docId ? { ...d, status, ...updates } : d)`. -/
def updateDoc (docs : List ProcessedDocument) (docId : String)
    (status : ProcessingStatus) (u : DocUpdates) : List ProcessedDocument :=
  docs.map fun d => if d.id == docId then applyUpdates d status u else d

/-- Case-list level of `updateDoc`: the update is keyed by case id and
document id; other cases are returned untouched. -/
def updateDocCases (cases : List MedicalCase) (caseId docId : String)
    (status : ProcessingStatus) (u : DocUpdates) : List MedicalCase :=
  cases.map fun c =>
    if c.id == caseId then { c with documents := updateDoc c.documents docId status u } else c

/-- `processDocument` (App, part_002 lines 93-116) as a function of the two
capability outcomes: set GENERATING_PROSE; on stage-1 success store the
prose and set EXTRACTING_ENTITIES; on stage-2 success store entities and
set COMPLETED; any caught failure sets ERROR with the fixed message
"Processing failed.". -/
def processDocument (docs : List ProcessedDocument) (docId : String)
    (stage1 : ModelResult) (stage2 : Stage2Response) : List ProcessedDocument :=
  let docs1 := updateDoc docs docId .GENERATING_PROSE {}
  match generateDocumentProse stage1 with
  | .error _ => updateDoc docs1 docId .ERROR { error := some "Processing failed." }
  | .ok prose =>
      let docs2 := updateDoc docs1 docId .EXTRACTING_ENTITIES { proseDescription := some prose }
      match extractEntitiesFromProse stage2 with
      | .error _ => updateDoc docs2 docId .ERROR { error := some "Processing failed." }
      | .ok entities => updateDoc docs2 docId .COMPLETED { entities := some entities }

/-! ### Queue scheduler (App, part_002 lines 75-91) -/

/-- `CONCURRENCY_LIMIT` (part_002 line 10). -/
def CONCURRENCY_LIMIT : Nat := 2

/-- A document counted as in-flight pipeline work. -/
def isProcessing (d : ProcessedDocument) : Bool :=
  d.status == .GENERATING_PROSE || d.status == .EXTRACTING_ENTITIES

/-- `processingCount`: number of documents in GENERATING_PROSE or
EXTRACTING_ENTITIES. -/
def processingCount (docs : List ProcessedDocument) : Nat :=
  (docs.filter isProcessing).length

/-- One scheduler evaluation (the queue-processing effect body): if the
in-flight count is below the limit, take the first QUEUED document; it is
admitted only when its `rawFile` handle is present.  Returns the admitted
document, if any. -/
def schedulerPick (docs : List ProcessedDocument) : Option ProcessedDocument :=
  if processingCount docs < CONCURRENCY_LIMIT then
    match docs.find? (fun d => d.status == .QUEUED) with
    | some d => if d.rawFile.isSome then some d else none
    | none => none
  else none

/-- `handleDeleteDocument` (part_001 lines 101-109):
`documents.filter(d => d.id !== docId)`. -/
def handleDeleteDocument (docs : List ProcessedDocument) (docId : String) :
    List ProcessedDocument :=
  docs.filter fun d => !(d.id == docId)

/-! ### Aggregation projection (App, part_002 lines 60-72) -/

/-- Stamping one DailyEntry with its source document's id and name. -/
def stampEvent (d : ProcessedDocument) (e : MedicalEntity) : TimelineEvent :=
  { date := e.date
    summary := e.summary
    facts := e.facts
    umlsEntities := e.umlsEntities
    sourceDocumentId := d.id
    sourceDocumentName := d.name }

/-- `activeCaseEvents`: filter to COMPLETED documents whose `entities`
field is set (JS truthiness of an array), then flatten each document's
entries, stamped with the source document's id and name. -/
def activeCaseEvents (docs : List ProcessedDocument) : List TimelineEvent :=
  (docs.filter fun d => d.status == .COMPLETED && d.entities.isSome).flatMap
    fun d => (d.entities.getD []).map (stampEvent d)

/-! ### Persistence round-trip (App, part_002 lines 24-53)

The spec scopes persistence mechanics (localStorage, JSON text) out; what
is modelled is the shape transformation the App performs: saving strips
the non-serializable `rawFile` from every document
(`({ rawFile, ...rest }) => rest`), and loading revives the stored
documents with no `rawFile` present.  JSON stringify/parse is identity on
the stored shape and `new Date(...)` revival is identity on timestamps. -/

/-- A document as it sits in localStorage: every field except `rawFile`. -/
structure StoredDocument where
  id : String
  name : String
  mimeType : String
  size : Nat
  uploadDate : Nat
  status : ProcessingStatus
  proseDescription : Option String := none
  entities : Option (List MedicalEntity) := none
  error : Option String := none
  deriving DecidableEq

/-- A case as it sits in localStorage. -/
structure StoredCase where
  id : String
  name : String
  createdAt : Nat
  documents : List StoredDocument
  deriving DecidableEq

/-- `({ rawFile, ...rest }) => rest` applied to one document. -/
def stripDoc (d : ProcessedDocument) : StoredDocument :=
  { id := d.id
    name := d.name
    mimeType := d.mimeType
    size := d.size
    uploadDate := d.uploadDate
    status := d.status
    proseDescription := d.proseDescription
    entities := d.entities
    error := d.error }

/-- The save path (persistence effect, part_002 lines 47-53). -/
def saveCases (cases : List MedicalCase) : List StoredCase :=
  cases.map fun c =>
    { id := c.id
      name := c.name
      createdAt := c.createdAt
      documents := c.documents.map stripDoc }

/-- Reviving one stored document on load: all fields restored, `rawFile`
absent. -/
def reviveDoc (d : StoredDocument) : ProcessedDocument :=
  { id := d.id
    name := d.name
    mimeType := d.mimeType
    size := d.size
    uploadDate := d.uploadDate
    status := d.status
    proseDescription := d.proseDescription
    entities := d.entities
    error := d.error
    rawFile := none }

/-- The load path (initial-load effect, part_002 lines 25-44). -/
def loadCases (stored : List StoredCase) : List MedicalCase :=
  stored.map fun c =>
    { id := c.id
      name := c.name
      createdAt := c.createdAt
      documents := c.documents.map reviveDoc }

/-! ### Transition system for one case's document list

Per the spec's design notes, the reactive scheduler is modelled as a pure
function evaluated after every mutation; a behaviour of the App is a
sequence of atomic mutations of the active case's document list.  The
constructors are exactly the mutations the source performs:

- `upload`: `handleFilesSelected` appends fresh documents in QUEUED status
  with no prose/entities/error (freshness of the generated `uuidv4()` ids
  is the `hfresh` hypothesis);
- `admitDoc`: a scheduler evaluation admits `schedulerPick docs` by running
  the first `updateDoc` of `processDocument` (status GENERATING_PROSE);
- `stage1Ok`/`stage1Fail`/`stage2Ok`/`stage2Fail`: the suspended
  `processDocument` resumes after a capability call and applies the
  corresponding `updateDoc`.  Between the update that started a stage and
  the resumption, nothing else mutates that document's status (statuses
  are only changed by the document's own `processDocument` run), so at
  resumption the document — when it still exists — is in the stage's
  status; the `hinflight` hypothesis records this, and is vacuous when the
  document was deleted in the meantime;
- `remove`: `handleDeleteDocument` filters the document out. -/
inductive Step : List ProcessedDocument → List ProcessedDocument → Prop where
  | upload (docs newDocs : List ProcessedDocument)
      (hnew : ∀ d ∈ newDocs, d.status = .QUEUED ∧ d.proseDescription = none ∧
        d.entities = none ∧ d.error = none)
      (hfresh : ((docs ++ newDocs).map ProcessedDocument.id).Nodup) :
      Step docs (docs ++ newDocs)
  | admitDoc (docs : List ProcessedDocument) (d : ProcessedDocument)
      (hpick : schedulerPick docs = some d) :
      Step docs (updateDoc docs d.id .GENERATING_PROSE {})
  | stage1Fail (docs : List ProcessedDocument) (docId : String)
      (hinflight : ∀ d ∈ docs, d.id = docId → d.status = .GENERATING_PROSE) :
      Step docs (updateDoc docs docId .ERROR { error := some "Processing failed." })
  | stage1Ok (docs : List ProcessedDocument) (docId : String) (prose : String)
      (hinflight : ∀ d ∈ docs, d.id = docId → d.status = .GENERATING_PROSE) :
      Step docs (updateDoc docs docId .EXTRACTING_ENTITIES { proseDescription := some prose })
  | stage2Fail (docs : List ProcessedDocument) (docId : String)
      (hinflight : ∀ d ∈ docs, d.id = docId → d.status = .EXTRACTING_ENTITIES) :
      Step docs (updateDoc docs docId .ERROR { error := some "Processing failed." })
  | stage2Ok (docs : List ProcessedDocument) (docId : String) (entities : List MedicalEntity)
      (hinflight : ∀ d ∈ docs, d.id = docId → d.status = .EXTRACTING_ENTITIES) :
      Step docs (updateDoc docs docId .COMPLETED { entities := some entities })
  | remove (docs : List ProcessedDocument) (docId : String) :
      Step docs (handleDeleteDocument docs docId)

/-- A document list is reachable when some sequence of mutations produces
it starting from the empty list a fresh case begins with. -/
def Reachable (docs : List ProcessedDocument) : Prop :=
  Relation.ReflTransGen Step [] docs

/-- The inductive invariant: document ids are distinct (uuid), in-flight
work is bounded by the admission-control constant, and queued documents
never carry an error. -/
def Inv (docs : List ProcessedDocument) : Prop :=
  ((docs.map ProcessedDocument.id).Nodup ∧ processingCount docs ≤ CONCURRENCY_LIMIT) ∧
    ∀ d ∈ docs, d.status = .QUEUED → d.error = none

/-- A document-collection mutation keyed by a document id: the only two
mutation shapes the App applies to an existing collection. -/
inductive CollectionOp where
  | update (docId : String) (status : ProcessingStatus) (u : DocUpdates)
  | remove (docId : String)

/-- Apply one keyed mutation. -/
def applyOp (docs : List ProcessedDocument) : CollectionOp → List ProcessedDocument
  | .update i st u => updateDoc docs i st u
  | .remove i => handleDeleteDocument docs i

/-- Apply a sequence of keyed mutations, oldest first. -/
def applyOps (docs : List ProcessedDocument) (ops : List CollectionOp) :
    List ProcessedDocument :=
  ops.foldl applyOp docs

/-! ### Concrete fixtures used to instantiate the theorems -/

/-- A concrete session binary handle. -/
def fileA : FileHandle :=
  { name := "a.pdf", mimeType := "application/pdf", size := 3 }

/-- A freshly uploaded document with its handle available. -/
def docA : ProcessedDocument :=
  { id := "a", name := "a.pdf", mimeType := "application/pdf", size := 3,
    uploadDate := 0, status := .QUEUED, rawFile := some fileA }

/-- A QUEUED document whose binary handle is absent (as after reload). -/
def docB : ProcessedDocument :=
  { id := "b", name := "b.pdf", mimeType := "application/pdf", size := 4,
    uploadDate := 1, status := .QUEUED, rawFile := none }

/-- A second QUEUED, eligible document (uploaded after `docA`). -/
def docC : ProcessedDocument :=
  { id := "c", name := "c.pdf", mimeType := "application/pdf", size := 5,
    uploadDate := 2, status := .QUEUED, rawFile := some fileA }

/-- A document carrying a previously stored error. -/
def docErr : ProcessedDocument :=
  { id := "e", name := "e.pdf", mimeType := "application/pdf", size := 6,
    uploadDate := 3, status := .QUEUED, error := some "previous failure" }

/-- A concrete well-formed fact. -/
def factX : MedicalFact := { category := .DIAGNOSIS, detail := "dx" }

/-- A concrete well-formed daily entry. -/
def entryE1 : MedicalEntity :=
  { date := "2020-01-01", summary := "day one", facts := [factX] }

/-- A second concrete well-formed daily entry. -/
def entryE2 : MedicalEntity :=
  { date := "2020-01-02", summary := "day two", facts := [factX] }

/-- A daily entry with an empty date and zero facts: representable model
output, malformed per the spec's schema requirements. -/
def badEntry : MedicalEntity := { date := "", summary := "s", facts := [] }

/-- A COMPLETED document holding `entryE1`. -/
def docD1 : ProcessedDocument :=
  { id := "d1", name := "d1.pdf", mimeType := "application/pdf", size := 7,
    uploadDate := 4, status := .COMPLETED, entities := some [entryE1] }

/-- A COMPLETED document holding `entryE2`. -/
def docD2 : ProcessedDocument :=
  { id := "d2", name := "d2.pdf", mimeType := "application/pdf", size := 8,
    uploadDate := 5, status := .COMPLETED, entities := some [entryE2] }

/-- A concrete case holding `docA`. -/
def caseX : MedicalCase :=
  { id := "x", name := "Case X", createdAt := 0, documents := [docA] }

/-! ### Helper lemmas -/

theorem applyUpdates_id (d : ProcessedDocument) (st : ProcessingStatus) (u : DocUpdates) :
    (applyUpdates d st u).id = d.id := rfl

theorem applyUpdates_status (d : ProcessedDocument) (st : ProcessingStatus) (u : DocUpdates) :
    (applyUpdates d st u).status = st := rfl

theorem applyUpdates_empty (d : ProcessedDocument) (st : ProcessingStatus) :
    applyUpdates d st {} = { d with status := st } := rfl

theorem updateDoc_of_ne (docId : String) (st : ProcessingStatus) (u : DocUpdates)
    (d : ProcessedDocument) (h : d.id ≠ docId) :
    (if d.id == docId then applyUpdates d st u else d) = d := by
  simp [h]

/-- `updateDoc` never changes the sequence of document ids. -/
theorem updateDoc_map_id (docs : List ProcessedDocument) (docId : String)
    (st : ProcessingStatus) (u : DocUpdates) :
    (updateDoc docs docId st u).map ProcessedDocument.id = docs.map ProcessedDocument.id := by
  unfold updateDoc
  rw [List.map_map]
  refine List.map_congr_left fun d _ => ?_
  by_cases h : d.id = docId
  · simp [h, applyUpdates]
  · simp [h]

/-- Updating an id that is not in the collection is exactly the identity. -/
theorem updateDoc_not_mem (docs : List ProcessedDocument) (docId : String)
    (st : ProcessingStatus) (u : DocUpdates)
    (h : docId ∉ docs.map ProcessedDocument.id) :
    updateDoc docs docId st u = docs := by
  unfold updateDoc
  have : ∀ d ∈ docs, (if d.id == docId then applyUpdates d st u else d) = d := by
    intro d hd
    refine updateDoc_of_ne docId st u d fun he => h ?_
    exact he ▸ List.mem_map_of_mem ProcessedDocument.id hd
  rw [List.map_congr_left this]
  simp

/-- Membership in an updated collection, in terms of the original. -/
theorem mem_updateDoc {docs : List ProcessedDocument} {docId : String}
    {st : ProcessingStatus} {u : DocUpdates} {d' : ProcessedDocument} :
    d' ∈ updateDoc docs docId st u ↔
      ∃ d ∈ docs, (if d.id == docId then applyUpdates d st u else d) = d' := by
  simp [updateDoc, List.mem_map]

theorem processingCount_eq_countP (docs : List ProcessedDocument) :
    processingCount docs = docs.countP isProcessing := by
  simp [processingCount, List.countP_eq_length_filter]

theorem isProcessing_applyUpdates (d : ProcessedDocument) (st : ProcessingStatus)
    (u : DocUpdates) :
    isProcessing (applyUpdates d st u) =
      (st == .GENERATING_PROSE || st == .EXTRACTING_ENTITIES) := rfl

/-- An `updateDoc` cannot raise the in-flight count when either the target
status is not an in-flight status, or every matched document is already in
flight. -/
theorem processingCount_updateDoc_le (docs : List ProcessedDocument) (docId : String)
    (st : ProcessingStatus) (u : DocUpdates)
    (hcase : (st == ProcessingStatus.GENERATING_PROSE ||
        st == ProcessingStatus.EXTRACTING_ENTITIES) = false ∨
      ∀ d ∈ docs, d.id = docId → isProcessing d = true) :
    processingCount (updateDoc docs docId st u) ≤ processingCount docs := by
  rw [processingCount_eq_countP, processingCount_eq_countP, updateDoc, List.countP_map]
  refine List.countP_mono_left fun d hd hp => ?_
  by_cases h : d.id = docId
  · rcases hcase with hc | hc
    · exfalso
      simp only [Function.comp, h, beq_self_eq_true, if_true,
        isProcessing_applyUpdates, hc] at hp
      exact Bool.noConfusion hp
    · exact hc d hd h
  · simpa [Function.comp, h] using hp

theorem processingCount_append (l₁ l₂ : List ProcessedDocument) :
    processingCount (l₁ ++ l₂) = processingCount l₁ + processingCount l₂ := by
  simp [processingCount, List.filter_append]

theorem processingCount_cons (d : ProcessedDocument) (docs : List ProcessedDocument) :
    processingCount (d :: docs) =
      (if isProcessing d then 1 else 0) + processingCount docs := by
  by_cases h : isProcessing d
  · simp [processingCount, List.filter_cons, h]
    omega
  · simp [processingCount, List.filter_cons, h]

/-- What a successful scheduler evaluation guarantees: capacity was
available, the admitted document is QUEUED with a binary handle present,
and it is the first QUEUED document in upload order. -/
theorem schedulerPick_eq_some {docs : List ProcessedDocument} {d : ProcessedDocument}
    (h : schedulerPick docs = some d) :
    processingCount docs < CONCURRENCY_LIMIT ∧ d.status = .QUEUED ∧
      d.rawFile.isSome = true ∧
      ∃ l₁ l₂, docs = l₁ ++ d :: l₂ ∧ ∀ e ∈ l₁, e.status ≠ ProcessingStatus.QUEUED := by
  unfold schedulerPick at h
  by_cases hc : processingCount docs < CONCURRENCY_LIMIT
  · rw [if_pos hc] at h
    cases hf : docs.find? (fun d => d.status == ProcessingStatus.QUEUED) with
    | none => rw [hf] at h; cases h
    | some d₀ =>
        rw [hf] at h
        have h' : (if d₀.rawFile.isSome = true then some d₀ else none) = some d := h
        by_cases hr : d₀.rawFile.isSome
        · rw [if_pos hr] at h'
          cases h'
          obtain ⟨hq, l₁, l₂, heq, hall⟩ := List.find?_eq_some.mp hf
          refine ⟨hc, by simpa using hq, hr, l₁, l₂, heq, fun e he => ?_⟩
          simpa using hall e he
        · rw [if_neg hr] at h'; cases h'
  · rw [if_neg hc] at h; cases h

/-- Admission of the scheduler's pick keeps the in-flight count within the
admission-control constant. -/
theorem processingCount_admit_le {docs : List ProcessedDocument} {d : ProcessedDocument}
    (hnodup : (docs.map ProcessedDocument.id).Nodup)
    (hpick : schedulerPick docs = some d) :
    processingCount (updateDoc docs d.id .GENERATING_PROSE {}) ≤ CONCURRENCY_LIMIT := by
  obtain ⟨hlt, hq, -, l₁, l₂, heq, -⟩ := schedulerPick_eq_some hpick
  subst heq
  have hids : (l₁.map ProcessedDocument.id).Nodup ∧
      d.id ∉ l₁.map ProcessedDocument.id ∧ d.id ∉ l₂.map ProcessedDocument.id := by
    rw [List.map_append, List.map_cons, List.nodup_append] at hnodup
    obtain ⟨h₁, h₂, hdisj⟩ := hnodup
    rw [List.nodup_cons] at h₂
    exact ⟨h₁, fun hm => hdisj hm (List.mem_cons_self _ _), h₂.1⟩
  have hsplit : updateDoc (l₁ ++ d :: l₂) d.id .GENERATING_PROSE {} =
      l₁ ++ applyUpdates d .GENERATING_PROSE {} :: l₂ := by
    unfold updateDoc
    rw [List.map_append, List.map_cons]
    have e₁ : ∀ e ∈ l₁,
        (if e.id == d.id then applyUpdates e .GENERATING_PROSE {} else e) = e := by
      intro e he
      refine updateDoc_of_ne d.id _ _ e fun hee => hids.2.1 ?_
      exact hee ▸ List.mem_map_of_mem ProcessedDocument.id he
    have e₂ : ∀ e ∈ l₂,
        (if e.id == d.id then applyUpdates e .GENERATING_PROSE {} else e) = e := by
      intro e he
      refine updateDoc_of_ne d.id _ _ e fun hee => hids.2.2 ?_
      exact hee ▸ List.mem_map_of_mem ProcessedDocument.id he
    rw [List.map_congr_left e₁, List.map_congr_left e₂]
    simp
  rw [hsplit, processingCount_append, processingCount_cons]
  rw [processingCount_append, processingCount_cons] at hlt
  have hd : isProcessing d = false := by simp [isProcessing, hq]
  have hd' : isProcessing (applyUpdates d .GENERATING_PROSE {}) = true := rfl
  rw [hd] at hlt
  rw [hd']
  simp only [if_true, if_false] at *
  omega

/-- Updating to a non-QUEUED status preserves the property that queued
documents carry no error. -/
theorem updateDoc_preserves_queued_error {docs : List ProcessedDocument} {docId : String}
    {st : ProcessingStatus} {u : DocUpdates} (hst : st ≠ .QUEUED)
    (herr : ∀ d ∈ docs, d.status = .QUEUED → d.error = none) :
    ∀ d' ∈ updateDoc docs docId st u, d'.status = .QUEUED → d'.error = none := by
  intro d' hd' hq
  obtain ⟨d₀, hd₀, hEq⟩ := mem_updateDoc.mp hd'
  by_cases h : (d₀.id == docId)
  · rw [if_pos h] at hEq
    exfalso
    apply hst
    rw [← hEq] at hq
    simpa [applyUpdates] using hq
  · rw [if_neg h] at hEq
    subst hEq
    exact herr d₀ hd₀ hq

theorem Inv_nil : Inv [] := by
  refine ⟨⟨List.nodup_nil, ?_⟩, ?_⟩
  · simp [processingCount, CONCURRENCY_LIMIT]
  · intro d hd
    cases hd

/-- Every atomic mutation preserves the inductive invariant. -/
theorem Inv_step {docs docs' : List ProcessedDocument} (hstep : Step docs docs')
    (hinv : Inv docs) : Inv docs' := by
  obtain ⟨⟨hnodup, hcount⟩, herr⟩ := hinv
  cases hstep with
  | upload newDocs hnew hfresh =>
      refine ⟨⟨hfresh, ?_⟩, ?_⟩
      · rw [processingCount_append]
        have hz : processingCount newDocs = 0 := by
          rw [processingCount_eq_countP, List.countP_eq_zero]
          intro d hd
          have hq := (hnew d hd).1
          simp [isProcessing, hq]
        omega
      · intro d hd hq
        rcases List.mem_append.mp hd with h | h
        · exact herr d h hq
        · exact (hnew d h).2.2.2
  | admitDoc d hpick =>
      refine ⟨⟨?_, processingCount_admit_le hnodup hpick⟩, ?_⟩
      · rw [updateDoc_map_id]; exact hnodup
      · exact updateDoc_preserves_queued_error (by simp) herr
  | stage1Fail docId hinflight =>
      refine ⟨⟨?_, ?_⟩, updateDoc_preserves_queued_error (by simp) herr⟩
      · rw [updateDoc_map_id]; exact hnodup
      · exact le_trans (processingCount_updateDoc_le _ _ _ _ (Or.inl (by decide))) hcount
  | stage1Ok docId prose hinflight =>
      refine ⟨⟨?_, ?_⟩, updateDoc_preserves_queued_error (by simp) herr⟩
      · rw [updateDoc_map_id]; exact hnodup
      · refine le_trans (processingCount_updateDoc_le _ _ _ _ (Or.inr ?_)) hcount
        intro d hd hid
        have hstat := hinflight d hd hid
        simp [isProcessing, hstat]
  | stage2Fail docId hinflight =>
      refine ⟨⟨?_, ?_⟩, updateDoc_preserves_queued_error (by simp) herr⟩
      · rw [updateDoc_map_id]; exact hnodup
      · exact le_trans (processingCount_updateDoc_le _ _ _ _ (Or.inl (by decide))) hcount
  | stage2Ok docId entities hinflight =>
      refine ⟨⟨?_, ?_⟩, updateDoc_preserves_queued_error (by simp) herr⟩
      · rw [updateDoc_map_id]; exact hnodup
      · exact le_trans (processingCount_updateDoc_le _ _ _ _ (Or.inl (by decide))) hcount
  | remove docId =>
      unfold handleDeleteDocument
      refine ⟨⟨?_, ?_⟩, ?_⟩
      · exact ((List.filter_sublist docs).map ProcessedDocument.id).nodup hnodup
      · rw [processingCount_eq_countP] at *
        exact le_trans ((List.filter_sublist docs).countP_le isProcessing) hcount
      · intro d hd hq
        exact herr d (List.mem_of_mem_filter hd) hq

/-- Every reachable document list satisfies the inductive invariant. -/
theorem reachable_Inv {docs : List ProcessedDocument} (h : Reachable docs) : Inv docs := by
  induction h with
  | refl => exact Inv_nil
  | tail _ hstep ih => exact Inv_step hstep ih

/-- Two successive updates keyed by the same id collapse to one pass. -/
theorem updateDoc_updateDoc (docs : List ProcessedDocument) (i : String)
    (st₁ : ProcessingStatus) (u₁ : DocUpdates) (st₂ : ProcessingStatus) (u₂ : DocUpdates) :
    updateDoc (updateDoc docs i st₁ u₁) i st₂ u₂ =
      docs.map fun d =>
        if d.id == i then applyUpdates (applyUpdates d st₁ u₁) st₂ u₂ else d := by
  unfold updateDoc
  rw [List.map_map]
  refine List.map_congr_left fun d _ => ?_
  by_cases h : d.id = i
  · simp [h, applyUpdates]
  · simp [h]

/-- Three successive updates keyed by the same id collapse to one pass. -/
theorem updateDoc_updateDoc_updateDoc (docs : List ProcessedDocument) (i : String)
    (st₁ : ProcessingStatus) (u₁ : DocUpdates) (st₂ : ProcessingStatus) (u₂ : DocUpdates)
    (st₃ : ProcessingStatus) (u₃ : DocUpdates) :
    updateDoc (updateDoc (updateDoc docs i st₁ u₁) i st₂ u₂) i st₃ u₃ =
      docs.map fun d =>
        if d.id == i then
          applyUpdates (applyUpdates (applyUpdates d st₁ u₁) st₂ u₂) st₃ u₃
        else d := by
  rw [updateDoc_updateDoc]
  unfold updateDoc
  rw [List.map_map]
  refine List.map_congr_left fun d _ => ?_
  by_cases h : d.id = i
  · simp [h, applyUpdates]
  · simp [h]

/-- Updates keyed by distinct ids commute. -/
theorem updateDoc_comm (docs : List ProcessedDocument) {i₁ i₂ : String}
    (st₁ : ProcessingStatus) (u₁ : DocUpdates) (st₂ : ProcessingStatus) (u₂ : DocUpdates)
    (h : i₁ ≠ i₂) :
    updateDoc (updateDoc docs i₁ st₁ u₁) i₂ st₂ u₂ =
      updateDoc (updateDoc docs i₂ st₂ u₂) i₁ st₁ u₁ := by
  unfold updateDoc
  rw [List.map_map, List.map_map]
  refine List.map_congr_left fun d _ => ?_
  by_cases h₁ : d.id = i₁
  · have h₂ : d.id ≠ i₂ := fun he => h (h₁ ▸ he)
    simp [h₁, h₂, h, Ne.symm h, applyUpdates]
  · by_cases h₂ : d.id = i₂
    · simp [h₁, h₂, h, Ne.symm h, applyUpdates]
    · simp [h₁, h₂]

/-- With distinct ids, two documents of the collection sharing an id are
the same document. -/
theorem eq_of_mem_of_id_eq {docs : List ProcessedDocument}
    (hnodup : (docs.map ProcessedDocument.id).Nodup) {a b : ProcessedDocument}
    (ha : a ∈ docs) (hb : b ∈ docs) (hid : a.id = b.id) : a = b :=
  List.inj_on_of_nodup_map hnodup ha hb hid

/-- A keyed mutation never introduces a document id that was absent. -/
theorem applyOp_not_mem_id {docs : List ProcessedDocument} {docId : String}
    (h : docId ∉ docs.map ProcessedDocument.id) (op : CollectionOp) :
    docId ∉ (applyOp docs op).map ProcessedDocument.id := by
  cases op with
  | update i st u =>
      intro hm
      rw [applyOp, updateDoc_map_id] at hm
      exact h hm
  | remove i =>
      intro hm
      apply h
      obtain ⟨d, hd, hdid⟩ := List.mem_map.mp hm
      exact hdid ▸ List.mem_map_of_mem ProcessedDocument.id
        (List.mem_of_mem_filter hd)

/-- A sequence of keyed mutations never re-introduces an absent id. -/
theorem applyOps_not_mem_id {docs : List ProcessedDocument} {docId : String}
    (h : docId ∉ docs.map ProcessedDocument.id) (ops : List CollectionOp) :
    docId ∉ (applyOps docs ops).map ProcessedDocument.id := by
  induction ops generalizing docs with
  | nil => exact h
  | cons op ops ih => exact ih (applyOp_not_mem_id h op)

/-- A stage-1 throw makes the whole run one ERROR update: status ERROR,
the generic message, and every other field (prose included) untouched. -/
theorem processDocument_stage1_failure (docs : List ProcessedDocument) (docId : String)
    (st2 : Stage2Response) :
    processDocument docs docId .failure st2 =
      docs.map fun d =>
        if d.id == docId then
          { d with status := .ERROR, error := some "Processing failed." }
        else d := by
  rw [show processDocument docs docId .failure st2 =
      updateDoc (updateDoc docs docId .GENERATING_PROSE {}) docId .ERROR
        { error := some "Processing failed." } from rfl]
  rw [updateDoc_updateDoc]
  rfl

/-- Empty stage-1 output is not a failure: the placeholder prose is stored
and the run continues into stage 2. -/
theorem processDocument_empty_prose (docs : List ProcessedDocument) (docId : String)
    (es : List MedicalEntity) :
    processDocument docs docId (.ok (some "")) (.parsed es) =
      docs.map fun d =>
        if d.id == docId then
          { d with status := .COMPLETED,
                   proseDescription := some "No description generated.",
                   entities := some es }
        else d := by
  rw [show processDocument docs docId (.ok (some "")) (.parsed es) =
      updateDoc (updateDoc (updateDoc docs docId .GENERATING_PROSE {}) docId
          .EXTRACTING_ENTITIES { proseDescription := some "No description generated." })
        docId .COMPLETED { entities := some es } from rfl]
  rw [updateDoc_updateDoc_updateDoc]
  rfl

theorem generateDocumentProse_nonempty {p : String} (hp : p ≠ "") :
    generateDocumentProse (.ok (some p)) = .ok p := by
  simp [generateDocumentProse, hp]

/-- A stage-2 failure after a successful stage 1 with prose `p`: the
document ends in ERROR with the generic message, the stage-1 prose stored
on it, and every other field untouched. -/
theorem processDocument_stage2_failure (docs : List ProcessedDocument) (docId : String)
    {p : String} (hp : p ≠ "") (st2 : Stage2Response)
    (hst2 : extractEntitiesFromProse st2 =
      .error "Failed to extract entities from prose.") :
    processDocument docs docId (.ok (some p)) st2 =
      docs.map fun d =>
        if d.id == docId then
          { d with status := .ERROR, proseDescription := some p,
                   error := some "Processing failed." }
        else d := by
  unfold processDocument
  rw [generateDocumentProse_nonempty hp]
  simp only [hst2]
  rw [updateDoc_updateDoc_updateDoc]
  rfl

/-- A fully successful run with prose `p` and parsed entities `es`: the
document ends COMPLETED with the prose and the entity list stored exactly
as the capability produced them. -/
theorem processDocument_success (docs : List ProcessedDocument) (docId : String)
    {p : String} (hp : p ≠ "") (es : List MedicalEntity) :
    processDocument docs docId (.ok (some p)) (.parsed es) =
      docs.map fun d =>
        if d.id == docId then
          { d with status := .COMPLETED, proseDescription := some p,
                   entities := some es }
        else d := by
  unfold processDocument
  rw [generateDocumentProse_nonempty hp]
  simp only [extractEntitiesFromProse]
  rw [updateDoc_updateDoc_updateDoc]
  rfl

/-- Membership in the aggregation projection. -/
theorem mem_activeCaseEvents {docs : List ProcessedDocument} {ev : TimelineEvent} :
    ev ∈ activeCaseEvents docs ↔
      ∃ d ∈ docs, d.status = .COMPLETED ∧
        ∃ e ∈ d.entities.getD [], ev = stampEvent d e := by
  unfold activeCaseEvents
  simp only [List.mem_flatMap, List.mem_filter, List.mem_map, Bool.and_eq_true, beq_iff_eq]
  constructor
  · rintro ⟨d, ⟨hd, hst, -⟩, e, he, hev⟩
    exact ⟨d, hd, hst, e, he, hev.symm⟩
  · rintro ⟨d, hd, hst, e, he, hev⟩
    have hsome : d.entities.isSome = true := by
      cases hent : d.entities with
      | none => rw [hent] at he; simp at he
      | some es => rfl
    exact ⟨d, ⟨hd, hst, hsome⟩, e, he, hev.symm⟩

/-! ### Claim theorems -/

/-- C1: in every reachable state of a case's document collection, at most
`CONCURRENCY_LIMIT` = 2 documents are simultaneously in GENERATING_PROSE
or EXTRACTING_ENTITIES, and a scheduler evaluation admits a document only
when the in-flight count is strictly below that constant. -/
theorem C1_concurrency_bound (docs : List ProcessedDocument) (h : Reachable docs) :
    processingCount docs ≤ CONCURRENCY_LIMIT ∧
      ∀ d, schedulerPick docs = some d → processingCount docs < CONCURRENCY_LIMIT :=
  ⟨(reachable_Inv h).1.2, fun _ hd => (schedulerPick_eq_some hd).1⟩

theorem C1_concurrency_bound_witness :
    processingCount (updateDoc [docA, docC] docA.id .GENERATING_PROSE {}) ≤
        CONCURRENCY_LIMIT ∧
      processingCount (updateDoc [docA, docC] docA.id .GENERATING_PROSE {}) <
        CONCURRENCY_LIMIT := by
  have hreach : Reachable (updateDoc [docA, docC] docA.id .GENERATING_PROSE {}) :=
    Relation.ReflTransGen.tail
      (Relation.ReflTransGen.single (Step.upload [] [docA, docC] (by decide) (by decide)))
      (Step.admitDoc [docA, docC] docA (by decide))
  exact ⟨(C1_concurrency_bound _ hreach).1,
    (C1_concurrency_bound _ hreach).2 docC (by decide)⟩

/-- C2 (counterexample): stage 2 performs no per-entry validation — a
parsed entry with an empty date and zero facts is returned unchanged and
ends up stored on the COMPLETED document's entry list. -/
theorem C2_zero_fact_entry_stored :
    extractEntitiesFromProse (.parsed [badEntry]) = .ok [badEntry] ∧
    (processDocument [docA] "a" (.ok (some "P")) (.parsed [badEntry])).map
        (fun d => (d.status, d.entities)) =
      [(ProcessingStatus.COMPLETED, some [badEntry])] ∧
    badEntry.facts = [] ∧ badEntry.date = "" :=
  ⟨rfl, by decide, rfl, rfl⟩

/-- C2 (amended): `extractEntitiesFromProse` applies no per-entry
filtering: a parsed response is returned exactly as produced and stored
unchanged on the COMPLETED document; the only code-level guard is that an
absent or empty response text yields the empty entry list. -/
theorem C2_no_stage2_filtering (docs : List ProcessedDocument) (docId : String)
    (es : List MedicalEntity) (p : String) (hp : p ≠ "") :
    extractEntitiesFromProse (.parsed es) = .ok es ∧
    extractEntitiesFromProse .emptyText = .ok [] ∧
    processDocument docs docId (.ok (some p)) (.parsed es) =
      docs.map fun d =>
        if d.id == docId then
          { d with status := .COMPLETED, proseDescription := some p, entities := some es }
        else d :=
  ⟨rfl, rfl, processDocument_success docs docId hp es⟩

theorem C2_no_stage2_filtering_witness :
    extractEntitiesFromProse (.parsed [badEntry]) = .ok [badEntry] ∧
    extractEntitiesFromProse .emptyText = .ok [] ∧
    processDocument [docA] "a" (.ok (some "P")) (.parsed [badEntry]) =
      [docA].map fun d =>
        if d.id == "a" then
          { d with status := .COMPLETED, proseDescription := some "P",
                   entities := some [badEntry] }
        else d :=
  C2_no_stage2_filtering [docA] "a" [badEntry] "P" (by decide)

/-- C3 (counterexample): when the stage-1 capability returns empty output,
the stage does not fail — the document proceeds and completes with the
placeholder prose "No description generated." stored, instead of
transitioning to ERROR with no prose. -/
theorem C3_empty_output_not_error :
    (processDocument [docA] "a" (.ok (some "")) (.parsed [])).map
        (fun d => (d.status, d.proseDescription)) =
      [(ProcessingStatus.COMPLETED, some "No description generated.")] := by
  decide

/-- C3 (amended): if the stage-1 capability call throws (unreachable or
timed out), the run fails with the generation-failure message, the
document transitions to ERROR and no prose is stored (no field other than
status and error changes); but empty output is not a failure: the
placeholder string "No description generated." is substituted and
processing continues. -/
theorem C3_stage1_failure_amended :
    (∀ (docs : List ProcessedDocument) (docId : String) (st2 : Stage2Response),
        processDocument docs docId .failure st2 =
          docs.map fun d =>
            if d.id == docId then
              { d with status := .ERROR, error := some "Processing failed." }
            else d) ∧
    generateDocumentProse .failure = .error "Failed to generate document description." ∧
    generateDocumentProse (.ok (some "")) = .ok "No description generated." ∧
    generateDocumentProse (.ok none) = .ok "No description generated." :=
  ⟨processDocument_stage1_failure, rfl, rfl, rfl⟩

/-- C4 (counterexample): the error message recorded on a stage-2 failure
is the fixed string "Processing failed." — identical to the one recorded
on a stage-1 failure — so the stored message does not identify the
failing stage. -/
theorem C4_generic_error_message :
    (processDocument [docA] "a" (.ok (some "P")) .apiFailure).map ProcessedDocument.error =
      [some "Processing failed."] ∧
    (processDocument [docB] "b" .failure .apiFailure).map ProcessedDocument.error =
      [some "Processing failed."] := by
  decide

/-- C4 (amended): a stage-2 failure (capability error or unparseable
output) transitions the document to ERROR carrying the generic message
"Processing failed." (the same message as stage-1 failures), while the
stage-1 prose is stored on the document and every other field is
unchanged. -/
theorem C4_stage2_failure_amended (docs : List ProcessedDocument) (docId : String)
    (p : String) (hp : p ≠ "") :
    (processDocument docs docId (.ok (some p)) .apiFailure =
      docs.map fun d =>
        if d.id == docId then
          { d with status := .ERROR, proseDescription := some p,
                   error := some "Processing failed." }
        else d) ∧
    (processDocument docs docId (.ok (some p)) .unparseable =
      docs.map fun d =>
        if d.id == docId then
          { d with status := .ERROR, proseDescription := some p,
                   error := some "Processing failed." }
        else d) :=
  ⟨processDocument_stage2_failure docs docId hp .apiFailure rfl,
   processDocument_stage2_failure docs docId hp .unparseable rfl⟩

theorem C4_stage2_failure_amended_witness :
    (processDocument [docA] "a" (.ok (some "P")) .apiFailure =
      [docA].map fun d =>
        if d.id == "a" then
          { d with status := .ERROR, proseDescription := some "P",
                   error := some "Processing failed." }
        else d) ∧
    (processDocument [docA] "a" (.ok (some "P")) .unparseable =
      [docA].map fun d =>
        if d.id == "a" then
          { d with status := .ERROR, proseDescription := some "P",
                   error := some "Processing failed." }
        else d) :=
  C4_stage2_failure_amended [docA] "a" "P" (by decide)

/-- C5: an admitting scheduler evaluation selects the earliest-uploaded
document still QUEUED (every document before it in upload order is not
QUEUED) and only admits it when its binary handle is present; a QUEUED
document without a handle is never admitted; and a later QUEUED, eligible
document is never admitted while an earlier QUEUED, eligible one is still
present. -/
theorem C5_scheduler_selection :
    (∀ (docs : List ProcessedDocument) (d : ProcessedDocument),
        schedulerPick docs = some d →
          d.status = .QUEUED ∧ d.rawFile.isSome = true ∧
            ∃ l₁ l₂, docs = l₁ ++ d :: l₂ ∧
              ∀ e ∈ l₁, e.status ≠ ProcessingStatus.QUEUED) ∧
    (∀ (docs : List ProcessedDocument) (d : ProcessedDocument),
        d.rawFile = none → schedulerPick docs ≠ some d) ∧
    (∀ (l₁ l₂ l₃ : List ProcessedDocument) (D D' : ProcessedDocument),
        D.status = .QUEUED → D.rawFile.isSome = true →
        D'.status = .QUEUED → D'.rawFile.isSome = true →
        (∀ e ∈ l₁ ++ [D], e.id ≠ D'.id) →
        schedulerPick (l₁ ++ D :: (l₂ ++ D' :: l₃)) ≠ some D') := by
  refine ⟨?_, ?_, ?_⟩
  · intro docs d h
    obtain ⟨-, hq, hr, hdec⟩ := schedulerPick_eq_some h
    exact ⟨hq, hr, hdec⟩
  · intro docs d hfile h
    obtain ⟨-, -, hr, -⟩ := schedulerPick_eq_some h
    rw [hfile] at hr
    cases hr
  · intro l₁ l₂ l₃ D D' hD _ _ _ hne hpick
    unfold schedulerPick at hpick
    by_cases hc : processingCount (l₁ ++ D :: (l₂ ++ D' :: l₃)) < CONCURRENCY_LIMIT
    · rw [if_pos hc] at hpick
      have hfind : (l₁ ++ D :: (l₂ ++ D' :: l₃)).find?
          (fun d => d.status == ProcessingStatus.QUEUED) =
          (l₁.find? (fun d => d.status == ProcessingStatus.QUEUED)).or (some D) := by
        rw [List.find?_append, List.find?_cons_of_pos _ (by simp [hD])]
      rw [hfind] at hpick
      cases hl : l₁.find? (fun d => d.status == ProcessingStatus.QUEUED) with
      | none =>
          rw [hl] at hpick
          have hpick' : (if D.rawFile.isSome = true then some D else none) = some D' :=
            hpick
          by_cases hr : D.rawFile.isSome
          · rw [if_pos hr] at hpick'
            have hDD : D = D' := Option.some.inj hpick'
            exact hne D (List.mem_append_right l₁ (List.mem_singleton_self D))
              (by rw [hDD])
          · rw [if_neg hr] at hpick'
            cases hpick'
      | some x =>
          rw [hl] at hpick
          have hx : x ∈ l₁ := List.mem_of_find?_eq_some hl
          have hpick' : (if x.rawFile.isSome = true then some x else none) = some D' :=
            hpick
          by_cases hr : x.rawFile.isSome
          · rw [if_pos hr] at hpick'
            have hxD : x = D' := Option.some.inj hpick'
            exact hne x (List.mem_append_left [D] hx) (by rw [hxD])
          · rw [if_neg hr] at hpick'
            cases hpick'
    · rw [if_neg hc] at hpick
      cases hpick

theorem C5_scheduler_selection_witness :
    (docA.status = .QUEUED ∧ docA.rawFile.isSome = true ∧
      ∃ l₁ l₂, [docA] = l₁ ++ docA :: l₂ ∧
        ∀ e ∈ l₁, e.status ≠ ProcessingStatus.QUEUED) ∧
    schedulerPick [docB] ≠ some docB ∧
    schedulerPick ([] ++ docA :: ([] ++ docC :: [])) ≠ some docC :=
  ⟨C5_scheduler_selection.1 [docA] docA (by decide),
   C5_scheduler_selection.2.1 [docB] docB rfl,
   C5_scheduler_selection.2.2 [] [] [] docA docC (by decide) (by decide) (by decide)
     (by decide) (by decide)⟩

/-- C6: the aggregation projection contains exactly the DailyEntries of
COMPLETED documents with a non-empty entry list, each stamped with the
source document's id and name, and its contents do not depend on the
order in which two distinct documents received their completion
updates. -/
theorem C6_aggregation_projection :
    (∀ (docs : List ProcessedDocument) (ev : TimelineEvent),
        ev ∈ activeCaseEvents docs ↔
          ∃ d ∈ docs, d.status = .COMPLETED ∧ d.entities.getD [] ≠ [] ∧
            ∃ e ∈ d.entities.getD [], ev = stampEvent d e) ∧
    (∀ (docs : List ProcessedDocument) (i₁ i₂ : String) (u₁ u₂ : DocUpdates),
        i₁ ≠ i₂ →
        activeCaseEvents (updateDoc (updateDoc docs i₁ .COMPLETED u₁) i₂ .COMPLETED u₂) =
          activeCaseEvents
            (updateDoc (updateDoc docs i₂ .COMPLETED u₂) i₁ .COMPLETED u₁)) := by
  constructor
  · intro docs ev
    rw [mem_activeCaseEvents]
    constructor
    · rintro ⟨d, hd, hst, e, he, hev⟩
      refine ⟨d, hd, hst, ?_, e, he, hev⟩
      intro hnil
      exact List.not_mem_nil e (hnil ▸ he)
    · rintro ⟨d, hd, hst, -, e, he, hev⟩
      exact ⟨d, hd, hst, e, he, hev⟩
  · intro docs i₁ i₂ u₁ u₂ h
    exact congrArg activeCaseEvents (updateDoc_comm docs .COMPLETED u₁ .COMPLETED u₂ h)

theorem C6_aggregation_projection_witness :
    (stampEvent docD1 entryE1 ∈ activeCaseEvents [docD1, docD2] ↔
      ∃ d ∈ [docD1, docD2], d.status = .COMPLETED ∧ d.entities.getD [] ≠ [] ∧
        ∃ e ∈ d.entities.getD [], stampEvent docD1 entryE1 = stampEvent d e) ∧
    activeCaseEvents (updateDoc (updateDoc [docA, docC] "a" .COMPLETED
        { entities := some [entryE1] }) "c" .COMPLETED { entities := some [entryE2] }) =
      activeCaseEvents (updateDoc (updateDoc [docA, docC] "c" .COMPLETED
        { entities := some [entryE2] }) "a" .COMPLETED { entities := some [entryE1] }) :=
  ⟨C6_aggregation_projection.1 [docD1, docD2] (stampEvent docD1 entryE1),
   C6_aggregation_projection.2 [docA, docC] "a" "c" _ _ (by decide)⟩

/-- C7: once a document id has been deleted from the collection, a later
stage-completion update keyed by that id is exactly the identity (at the
document-list and at the case-list level), and no sequence of keyed
updates or deletions re-introduces the id; deletion itself removes the id
from the collection. -/
theorem C7_deleted_id_never_reappears (docs : List ProcessedDocument) (docId : String)
    (h : docId ∉ docs.map ProcessedDocument.id) :
    (∀ (st : ProcessingStatus) (u : DocUpdates), updateDoc docs docId st u = docs) ∧
    (∀ (cs : List MedicalCase) (caseId : String) (st : ProcessingStatus) (u : DocUpdates),
        (∀ c ∈ cs, docId ∉ c.documents.map ProcessedDocument.id) →
        updateDocCases cs caseId docId st u = cs) ∧
    (∀ ops : List CollectionOp,
        docId ∉ (applyOps docs ops).map ProcessedDocument.id) ∧
    (∀ docs₀ : List ProcessedDocument,
        docId ∉ (handleDeleteDocument docs₀ docId).map ProcessedDocument.id) := by
  refine ⟨fun st u => updateDoc_not_mem docs docId st u h, ?_,
    fun ops => applyOps_not_mem_id h ops, ?_⟩
  · intro cs caseId st u hall
    unfold updateDocCases
    have hid : ∀ c ∈ cs,
        (if c.id == caseId then
            { c with documents := updateDoc c.documents docId st u }
          else c) = c := by
      intro c hc
      by_cases hcid : c.id = caseId
      · rw [if_pos (by simp [hcid]), updateDoc_not_mem _ _ _ _ (hall c hc)]
      · rw [if_neg (by simp [hcid])]
    rw [List.map_congr_left hid]
    simp
  · intro docs₀ hm
    obtain ⟨d, hd, hdid⟩ := List.mem_map.mp hm
    obtain ⟨-, hneq⟩ := List.mem_filter.mp hd
    simp only [Bool.not_eq_true', beq_eq_false_iff_ne, ne_eq] at hneq
    exact hneq hdid

theorem C7_deleted_id_never_reappears_witness :
    updateDoc [docA] "z" .COMPLETED { entities := some [entryE1] } = [docA] ∧
    updateDocCases [caseX] "x" "z" .COMPLETED {} = [caseX] ∧
    "z" ∉ (applyOps [docA]
        [CollectionOp.update "z" .COMPLETED {}, CollectionOp.remove "a"]).map
        ProcessedDocument.id ∧
    "z" ∉ (handleDeleteDocument [docErr] "z").map ProcessedDocument.id :=
  ⟨(C7_deleted_id_never_reappears [docA] "z" (by decide)).1 .COMPLETED
      { entities := some [entryE1] },
   (C7_deleted_id_never_reappears [docA] "z" (by decide)).2.1 [caseX] "x" .COMPLETED {}
      (by decide),
   (C7_deleted_id_never_reappears [docA] "z" (by decide)).2.2.1
      [CollectionOp.update "z" .COMPLETED {}, CollectionOp.remove "a"],
   (C7_deleted_id_never_reappears [docA] "z" (by decide)).2.2.2 [docErr]⟩

/-- C8 (counterexample): the GENERATING_PROSE transition does not clear a
previously stored error — the spread keeps the `error` field, so the
post-transition document still carries it. -/
theorem C8_error_survives_transition :
    (updateDoc [docErr] "e" .GENERATING_PROSE {}).map (fun d => (d.status, d.error)) =
      [(ProcessingStatus.GENERATING_PROSE, some "previous failure")] := by
  decide

/-- C8 (amended): the transition into GENERATING_PROSE keeps every field
other than status (it does not clear a stored error); however, in every
reachable state the scheduler admits only QUEUED documents and QUEUED
documents never carry an error, so the document entering GENERATING_PROSE
has no error after the transition. -/
theorem C8_admitted_document_has_no_error (docs : List ProcessedDocument)
    (d : ProcessedDocument) (h : Reachable docs)
    (hpick : schedulerPick docs = some d) :
    ∀ d' ∈ updateDoc docs d.id .GENERATING_PROSE {}, d'.id = d.id →
      d'.status = .GENERATING_PROSE ∧ d'.error = none := by
  obtain ⟨⟨hnodup, -⟩, herr⟩ := reachable_Inv h
  obtain ⟨-, hq, -, l₁, l₂, heq, -⟩ := schedulerPick_eq_some hpick
  have hdmem : d ∈ docs := by
    rw [heq]
    exact List.mem_append_right l₁ (List.mem_cons_self _ _)
  have hderr : d.error = none := herr d hdmem hq
  intro d' hd' hid
  obtain ⟨d₀, hd₀, hEq⟩ := mem_updateDoc.mp hd'
  by_cases hcase : (d₀.id == d.id)
  · rw [if_pos hcase] at hEq
    have hd₀d : d₀ = d := eq_of_mem_of_id_eq hnodup hd₀ hdmem (by simpa using hcase)
    refine ⟨?_, ?_⟩
    · rw [← hEq]
      rfl
    · rw [← hEq, hd₀d]
      exact hderr
  · rw [if_neg hcase] at hEq
    have : d₀.id = d.id := by rw [hEq]; exact hid
    exact absurd this (by simpa using hcase)

theorem C8_admitted_document_has_no_error_witness :
    ({ docA with status := .GENERATING_PROSE } : ProcessedDocument).status =
        .GENERATING_PROSE ∧
      ({ docA with status := .GENERATING_PROSE } : ProcessedDocument).error = none :=
  C8_admitted_document_has_no_error [docA] docA
    (Relation.ReflTransGen.single (Step.upload [] [docA] (by decide) (by decide)))
    (by decide) { docA with status := .GENERATING_PROSE } (by decide) (by decide)

/-- C9: saving a list of cases and loading it back reproduces every case,
document and entry field-for-field, except that every document's binary
handle is absent after the reload. -/
theorem C9_persistence_roundtrip (cs : List MedicalCase) :
    loadCases (saveCases cs) =
      cs.map fun c =>
        { c with documents := c.documents.map fun d => { d with rawFile := none } } := by
  unfold loadCases saveCases
  rw [List.map_map]
  refine List.map_congr_left fun c _ => ?_
  simp only [Function.comp, List.map_map]
  congr 1

end MedChron
